import Mathlib

/-!
# Verification of the scoring / deduplication / clustering core of ai-news-agent

Shallow embedding of the Python sources:
- `src/agent.py` (keyword scoring, semantic-score dispatch, duplicate check, digest pipeline)
- `src/services/embeddings.py` (provider cascade with tenacity retry)
- `src/services/vector_store.py` (ChromaDB wrapper)
- `src/services/semantic_scorer.py` (cosine-similarity relevance scoring)
- `src/services/topic_clustering.py` (silhouette search for the cluster count)

Numeric conventions: Python floats are modelled as exact rationals (`ℚ`) where the
code only moves values around and compares them, and as reals (`ℝ`) where the code
computes square roots (cosine similarity). External collaborators (the embedding
HTTP APIs, ChromaDB's internal HNSW distance computation, sklearn's KMeans and
silhouette score) are modelled as oracle parameters or, for ChromaDB's documented
validation behaviour, as an explicitly documented model.
-/

set_option autoImplicit false

namespace NewsAgent

/-! ## String helpers (modelling Python `str` operations on code points) -/

/-- Python `str.strip()` on a list of code points: drop leading and trailing
whitespace. -/
def stripChars (l : List Char) : List Char :=
  ((l.dropWhile Char.isWhitespace).reverse.dropWhile Char.isWhitespace).reverse

/-- One pass of `re.sub(r"\s+", " ", text)`: every maximal run of whitespace
becomes a single space.  `prevWs` records whether the previous character was
part of a whitespace run already emitted as `' '`. -/
def collapseWsGo : Bool → List Char → List Char
  | _, [] => []
  | prevWs, c :: cs =>
    if c.isWhitespace then
      if prevWs then collapseWsGo true cs
      else ' ' :: collapseWsGo true cs
    else c :: collapseWsGo false cs

/-- `re.sub(r"\s+", " ", text)`. -/
def collapseWs (l : List Char) : List Char :=
  collapseWsGo false l

/-- Python substring test `pat in hay` (`str.__contains__`): `pat` occurs
contiguously in `hay`; the empty pattern always matches. -/
def strContains (hay pat : String) : Bool :=
  hay.data.tails.any (fun t => pat.data.isPrefixOf t)

/-! ## `src/agent.py`: normalisation and keyword scoring -/

/-- `agent.norm`: `re.sub(r"\s+", " ", (text or "").lower()).strip()`. -/
def norm (text : String) : String :=
  ⟨stripChars (collapseWs (text.data.map Char.toLower))⟩

/-- `agent.USER_INTERESTS`: the configured fallback keywords. -/
def USER_INTERESTS : List String :=
  ["genai", "generative ai", "llm", "agent", "agents",
   "openai", "anthropic", "gemini", "mistral", "claude",
   "cursor", "copilot", "aider", "enterprise", "bank",
   "marketing", "automation", "workflow", "funding", "acquisition"]

/-- `agent.score_item_keywords`: normalise `f"{title} {summary}"` and add 2 to the
score for every configured keyword occurring in the normalised text. -/
def score_item_keywords (title : String) (summary : String) : ℤ :=
  let text := norm (title ++ " " ++ summary)
  USER_INTERESTS.foldl (fun score kw => if strContains text kw then score + 2 else score) 0

/-- Outcome of the semantic path of `agent.score_item`
(`scorer.score_to_int(scorer.score_text(text), scale=10)`), abstracted as an
oracle: either the integer score it returned, or the message of the exception
it raised. -/
inductive SemanticOutcome where
  | ok (score : ℤ)
  | err (msg : String)
deriving DecidableEq

/-- `agent.score_item`: keyword scoring when semantic scoring is disabled, the
process-wide `_quota_exceeded` flag is set, or the semantic path raises; the
semantic integer score otherwise.  (The flag update performed inside the
`except` branch is a side effect on module state and does not change the
returned score.) -/
def score_item (useSemantic quotaExceeded : Bool) (semantic : SemanticOutcome)
    (title summary : String) : ℤ :=
  if !useSemantic || quotaExceeded then score_item_keywords title summary
  else
    match semantic with
    | .ok s => s
    | .err _ => score_item_keywords title summary

/-- Refinement-side definition, following the spec's words: the "count of
configured interest keywords present in the normalized lowercase text". -/
def keywordOverlapCountSpec (title summary : String) : ℕ :=
  (USER_INTERESTS.filter (fun kw => strContains (norm (title ++ " " ++ summary)) kw)).length

lemma foldl_keyword_score (text : String) (l : List String) (init : ℤ) :
    l.foldl (fun score kw => if strContains text kw then score + 2 else score) init
      = init + 2 * (l.filter (fun kw => strContains text kw)).length := by
  induction l generalizing init with
  | nil => simp
  | cons kw rest ih =>
    by_cases h : strContains text kw
    · simp only [List.foldl_cons, List.filter_cons, h, if_pos, ih]
      simp only [if_true, List.length_cons]
      push_cast
      ring
    · simp only [List.foldl_cons, List.filter_cons, h, if_neg, ih]
      simp only [Bool.false_eq_true, if_false]

theorem score_item_keywords_eq_twice_count (title summary : String) :
    score_item_keywords title summary = 2 * keywordOverlapCountSpec title summary := by
  unfold score_item_keywords keywordOverlapCountSpec
  rw [foldl_keyword_score]
  ring

/-- C7, counterexample: on the title `"openai llm"` two keywords
(`"openai"` and `"llm"`) are present, so the claimed fallback score (the
count, 2) differs from the code's fallback score (2 points per keyword, 4). -/
theorem C7_counterexample :
    score_item true false (.err "boom") "openai llm" "" = 4
      ∧ keywordOverlapCountSpec "openai llm" "" = 2
      ∧ score_item true false (.err "boom") "openai llm" ""
          ≠ (keywordOverlapCountSpec "openai llm" "" : ℤ) := by
  refine ⟨by decide, by decide, by decide⟩

/-- C7, amended: relevance scoring is total (the model returns a score for every
input); whenever the semantic path raises, and also when the quota flag is
already set, `score_item` returns the deterministic keyword-overlap fallback
score — and that fallback score equals TWICE the count of configured interest
keywords present in the normalised lowercase text (2 points per keyword). -/
theorem C7_amended (title summary : String) (quotaExceeded : Bool) (msg : String)
    (anyOutcome : SemanticOutcome) :
    score_item true quotaExceeded (.err msg) title summary = score_item_keywords title summary
      ∧ score_item true true anyOutcome title summary = score_item_keywords title summary
      ∧ score_item_keywords title summary = 2 * keywordOverlapCountSpec title summary := by
  refine ⟨?_, ?_, score_item_keywords_eq_twice_count title summary⟩
  · cases quotaExceeded <;> simp [score_item]
  · simp [score_item]

/-! ## `src/services/embeddings.py`: providers and the cascading service

A provider's HTTP API is an oracle `api : String → ℕ → ApiOutcome` giving the
outcome of the i-th attempt of one `get_embedding` call for a given (stripped,
truncated) text.  `tiktoken` truncation is the oracle `truncate`. -/

/-- Outcome of one embedding API call: the vector, an
`openai.RateLimitError`-style quota error, or any other exception. -/
inductive ApiOutcome where
  | ok (v : List ℚ)
  | rateLimited
  | fail (msg : String)
deriving DecidableEq

/-- The exception escaping one (or all retried) provider attempt(s). -/
inductive EmbedFailure where
  | emptyText       -- `ValueError("Cannot embed empty text")`
  | rateLimited     -- `openai.RateLimitError` re-raised
  | other (msg : String)
deriving DecidableEq

/-- A concrete embedding provider: `OpenAIProvider` has `retried = true` (its
`get_embedding` carries the tenacity decorator), `JinaProvider` has
`retried = false` (a single call). -/
structure ProviderModel where
  available : Bool
  dimensions : ℕ
  truncate : String → String
  api : String → ℕ → ApiOutcome
  retried : Bool

/-- One attempt of `OpenAIProvider.get_embedding` / `JinaProvider.get_embedding`:
reject empty or whitespace-only text with `ValueError` before any API call,
otherwise strip, truncate and call the API once. -/
def attemptGetEmbedding (p : ProviderModel) (text : String) (attempt : ℕ) :
    Except EmbedFailure (List ℚ) :=
  if (stripChars text.data).isEmpty then .error .emptyText
  else
    match p.api (p.truncate ⟨stripChars text.data⟩) attempt with
    | .ok v => .ok v
    | .rateLimited => .error .rateLimited
    | .fail m => .error (.other m)

/-- The tenacity decorator on `OpenAIProvider.get_embedding`:
`stop=stop_after_attempt(3)`, `retry=retry_if_exception_type((Exception,))`,
`reraise=True` — every exception (including `RateLimitError` and the empty-text
`ValueError`, both subclasses of `Exception`) is retried until the third attempt,
whose exception is re-raised. -/
def retriedGetEmbedding (p : ProviderModel) (text : String) : Except EmbedFailure (List ℚ) :=
  match attemptGetEmbedding p text 0 with
  | .ok v => .ok v
  | .error _ =>
    match attemptGetEmbedding p text 1 with
    | .ok v => .ok v
    | .error _ => attemptGetEmbedding p text 2

/-- Number of attempts one `get_embedding` call makes on this provider before
returning or re-raising (1, 2 or 3 when retried; always 1 when not). -/
def attemptsMade (p : ProviderModel) (text : String) : ℕ :=
  if !p.retried then 1
  else
    match attemptGetEmbedding p text 0 with
    | .ok _ => 1
    | .error _ =>
      match attemptGetEmbedding p text 1 with
      | .ok _ => 2
      | .error _ => 3

/-- `EmbeddingProvider.get_embedding` as dispatched on the concrete class. -/
def ProviderModel.getEmbedding (p : ProviderModel) (text : String) :
    Except EmbedFailure (List ℚ) :=
  if p.retried then retriedGetEmbedding p text else attemptGetEmbedding p text 0

/-- The `RuntimeError("All embedding providers failed...")` of
`EmbeddingService.get_embedding`. -/
inductive ServiceFailure where
  | allProvidersFailed
deriving DecidableEq

/-- `EmbeddingService.get_embedding`: walk the configured cascade in priority
order, skip unavailable providers, return the first success, catch every
provider exception and move on; raise `RuntimeError` when the cascade is
exhausted. -/
def serviceGetEmbedding : List ProviderModel → String → Except ServiceFailure (List ℚ)
  | [], _ => .error .allProvidersFailed
  | p :: rest, text =>
    if !p.available then serviceGetEmbedding rest text
    else
      match p.getEmbedding text with
      | .ok v => .ok v
      | .error _ => serviceGetEmbedding rest text

/-- A provider observing nothing but rate-limit errors from its API. -/
def rateLimitedProvider : ProviderModel :=
  { available := true
    dimensions := 1536
    truncate := id
    api := fun _ _ => .rateLimited
    retried := true }

/-- A healthy fallback provider that always returns `[1, 2]`. -/
def healthyProvider : ProviderModel :=
  { available := true
    dimensions := 2
    truncate := id
    api := fun _ _ => .ok [1, 2]
    retried := false }

/-- C1: the tenacity retry predicate `retry_if_exception_type((Exception,))`
matches `RateLimitError`, so a rate-limited provider is attempted 3 times (with
exponential backoff) before its error is re-raised and the cascade moves on —
the claimed "no repeated attempt against the rate-limited provider" does not
hold, although the fall-through to the next provider does eventually happen. -/
theorem C1_rate_limit_is_retried :
    attemptsMade rateLimitedProvider "hello" = 3
      ∧ retriedGetEmbedding rateLimitedProvider "hello" = .error .rateLimited
      ∧ serviceGetEmbedding [rateLimitedProvider, healthyProvider] "hello" = .ok [1, 2]
      ∧ attemptsMade rateLimitedProvider "hello" ≠ 1 := by
  refine ⟨by decide, rfl, rfl, by decide⟩

/-- C2, counterexample: on whitespace-only input the service does not return an
empty vector — every provider raises `ValueError("Cannot embed empty text")`,
the cascade exhausts, and `get_embedding` raises `RuntimeError`, even though a
healthy provider is configured. -/
theorem C2_counterexample :
    serviceGetEmbedding [healthyProvider] " " = .error .allProvidersFailed
      ∧ ∀ v : List ℚ, serviceGetEmbedding [healthyProvider] " " ≠ .ok v := by
  refine ⟨rfl, fun v h => ?_⟩
  rw [show serviceGetEmbedding [healthyProvider] " " = .error .allProvidersFailed from rfl] at h
  exact Except.noConfusion h

/-- C2, amended: `EmbeddingService.get_embedding` raises (never returns an empty
vector) when the text is empty or whitespace-only, because every provider
rejects such input before calling its API; and for any text on which the
cascade succeeds, the returned vector has the dimensionality of some available
provider of the cascade, provided each provider's API honours its requested
dimensionality.  (The empty-vector-at-the-same-position behaviour described by
the spec belongs to `batch_embed`, not `get_embedding`.) -/
theorem C2_amended (providers : List ProviderModel) (text : String)
    (hdim : ∀ p ∈ providers, ∀ t i v, p.api t i = .ok v → v.length = p.dimensions) :
    ((stripChars text.data).isEmpty →
       serviceGetEmbedding providers text = .error .allProvidersFailed)
      ∧ ∀ v, serviceGetEmbedding providers text = .ok v →
          ∃ p ∈ providers, p.available = true ∧ v.length = p.dimensions := by
  induction providers with
  | nil => exact ⟨fun _ => rfl, fun v h => by simp [serviceGetEmbedding] at h⟩
  | cons p rest ih =>
    have hrest := ih (fun q hq => hdim q (List.mem_cons_of_mem p hq))
    have hattempt : ∀ i v, attemptGetEmbedding p text i = .ok v → v.length = p.dimensions := by
      intro i v h
      unfold attemptGetEmbedding at h
      by_cases hempty : (stripChars text.data).isEmpty
      · simp [hempty] at h
      · simp only [hempty, Bool.false_eq_true, if_false] at h
        cases hapi : p.api (p.truncate ⟨stripChars text.data⟩) i with
        | ok w =>
          rw [hapi] at h
          cases h
          exact hdim p (List.mem_cons_self p rest) _ i v hapi
        | rateLimited => rw [hapi] at h; exact Except.noConfusion h
        | fail m => rw [hapi] at h; exact Except.noConfusion h
    have hget : ∀ v, p.getEmbedding text = .ok v → v.length = p.dimensions := by
      intro v h
      unfold ProviderModel.getEmbedding retriedGetEmbedding at h
      by_cases hr : p.retried
      · simp only [hr, if_pos] at h
        cases h0 : attemptGetEmbedding p text 0 with
        | ok w => rw [h0] at h; cases h; exact hattempt 0 v h0
        | error e0 =>
          rw [h0] at h
          cases h1 : attemptGetEmbedding p text 1 with
          | ok w => rw [h1] at h; cases h; exact hattempt 1 v h1
          | error e1 => rw [h1] at h; exact hattempt 2 v h
      · simp only [hr, if_neg, if_false] at h
        exact hattempt 0 v h
    have hgetEmpty : (stripChars text.data).isEmpty →
        ∀ i, attemptGetEmbedding p text i = .error .emptyText := by
      intro hempty i
      unfold attemptGetEmbedding
      simp [hempty]
    constructor
    · intro hempty
      show serviceGetEmbedding (p :: rest) text = _
      unfold serviceGetEmbedding
      by_cases hav : p.available
      · simp only [hav, Bool.not_true, Bool.false_eq_true, if_false]
        have : p.getEmbedding text = .error .emptyText := by
          unfold ProviderModel.getEmbedding retriedGetEmbedding
          by_cases hr : p.retried <;>
            simp [hr, hgetEmpty hempty 0, hgetEmpty hempty 1, hgetEmpty hempty 2]
        rw [this]
        exact hrest.1 hempty
      · simp only [Bool.not_eq_true] at hav
        simp only [hav, Bool.not_false, if_pos]
        exact hrest.1 hempty
    · intro v h
      unfold serviceGetEmbedding at h
      by_cases hav : p.available
      · simp only [hav, Bool.not_true, Bool.false_eq_true, if_false] at h
        cases hg : p.getEmbedding text with
        | ok w =>
          rw [hg] at h
          cases h
          exact ⟨p, List.mem_cons_self p rest, hav, hget v hg⟩
        | error e =>
          rw [hg] at h
          obtain ⟨q, hq, hqa, hqd⟩ := hrest.2 v h
          exact ⟨q, List.mem_cons_of_mem p hq, hqa, hqd⟩
      · simp only [Bool.not_eq_true] at hav
        simp only [hav, Bool.not_false, if_pos] at h
        obtain ⟨q, hq, hqa, hqd⟩ := hrest.2 v h
        exact ⟨q, List.mem_cons_of_mem p hq, hqa, hqd⟩

/-- Witness for `C2_amended` at a concrete cascade: the rate-limited primary and
the healthy fallback; the hypothesis (APIs honour their dimensionality) holds,
whitespace input raises, and `"hello"` yields a vector of the fallback's
dimensionality. -/
theorem C2_amended_witness :
    (((stripChars " ".data).isEmpty →
       serviceGetEmbedding [rateLimitedProvider, healthyProvider] " "
         = .error .allProvidersFailed)
      ∧ ∀ v, serviceGetEmbedding [rateLimitedProvider, healthyProvider] " " = .ok v →
          ∃ p ∈ [rateLimitedProvider, healthyProvider],
            p.available = true ∧ v.length = p.dimensions) := by
  refine C2_amended [rateLimitedProvider, healthyProvider] " " ?_
  intro p hp t i v h
  rcases List.mem_cons.mp hp with hp | hp
  · subst hp
    exact ApiOutcome.noConfusion h
  · rcases List.mem_cons.mp hp with hp | hp
    · subst hp
      have hv : ApiOutcome.ok [(1 : ℚ), 2] = ApiOutcome.ok v := h
      cases hv
      rfl
    · cases hp

/-! ## `src/services/vector_store.py`: the ChromaDB wrapper

The backing store (chromadb `PersistentClient` collections created with
`metadata={"hnsw:space": "cosine"}`) is external to the repository.  Its two
behaviours the wrapper relies on are modelled explicitly:

* `Collection.upsert` validates every embedding against the collection's
  dimensionality — fixed by the first stored embedding — and raises
  `InvalidDimensionException` on any mismatch, storing nothing (upsert-by-id
  otherwise overwrites in place, last writer wins);
* `Collection.query` returns the `n_results` stored items nearest to the query
  by the collection's distance metric, distances ascending.  The numeric
  cosine-distance computation happens inside chromadb's HNSW index and is
  modelled as an oracle `dist` (similarity is recovered by the wrapper as
  `1 - distance`).
-/

/-- The three collections of `VectorStore.COLLECTIONS`. -/
inductive ItemType where
  | news
  | podcast
  | video
deriving DecidableEq

/-- The value of `VectorStore.COLLECTIONS[item_type]`'s `item_type` metadata key. -/
def ItemType.name : ItemType → String
  | .news => "news"
  | .podcast => "podcast"
  | .video => "video"

/-- One stored `{id, embedding, metadata, document}` record. -/
structure StoredRec where
  id : String
  embedding : List ℚ
  metadata : List (String × String)
  document : String
deriving DecidableEq

/-- A ChromaDB collection: its records, unique by id. -/
structure Collection where
  recs : List StoredRec
deriving DecidableEq

/-- `chromadb.errors.InvalidDimensionException`. -/
inductive ChromaError where
  | invalidDimension
deriving DecidableEq

/-- The collection's pinned dimensionality: that of its stored embeddings
(`none` while empty). -/
def Collection.dim? (c : Collection) : Option ℕ :=
  c.recs.head?.map (fun r => r.embedding.length)

/-- Upsert one record into a record list: overwrite in place when the id exists,
append otherwise. -/
def upsertRec : List StoredRec → StoredRec → List StoredRec
  | [], r => [r]
  | s :: rest, r => if s.id = r.id then r :: rest else s :: upsertRec rest r

/-- The dimensionality chromadb validates an upsert against: the collection's
pinned dimensionality, or — for a still-empty collection — that of the first
incoming embedding. -/
def Collection.upsertDim (c : Collection) (entries : List StoredRec) : ℕ :=
  match c.dim? with
  | some d => d
  | none => ((entries.head?.map (fun r => r.embedding.length)).getD 0)

/-- Modelled external behaviour of chromadb `Collection.upsert`: all entries are
validated against the collection's dimensionality (set by the first embedding
when the collection is empty) before anything is written; a mismatch raises
`InvalidDimensionException` and stores nothing. -/
def Collection.upsert (c : Collection) (entries : List StoredRec) :
    Except ChromaError Collection :=
  if entries.all (fun r => r.embedding.length == c.upsertDim entries) then
    .ok ⟨entries.foldl upsertRec c.recs⟩
  else .error .invalidDimension

/-- `collection.count()`. -/
def Collection.count (c : Collection) : ℕ :=
  c.recs.length

/-- Modelled external behaviour of chromadb `Collection.query` on a
cosine-space collection: the `n` stored records nearest to `q`, distances
ascending, distance computed by the backend (`dist` oracle). -/
def Collection.query (c : Collection) (dist : List ℚ → List ℚ → ℚ) (q : List ℚ)
    (n : ℕ) : List StoredRec :=
  (c.recs.insertionSort
    (fun a b => dist q a.embedding ≤ dist q b.embedding)).take n

/-- The wrapper's store: one collection per item type
(`news_items`, `podcasts`, `videos`). -/
structure VectorStore where
  news : Collection
  podcast : Collection
  video : Collection
deriving DecidableEq

/-- `VectorStore._get_collection`. -/
def VectorStore.coll (vs : VectorStore) : ItemType → Collection
  | .news => vs.news
  | .podcast => vs.podcast
  | .video => vs.video

/-- Replace one collection of the store. -/
def VectorStore.setColl (vs : VectorStore) : ItemType → Collection → VectorStore
  | .news, c => { vs with news := c }
  | .podcast, c => { vs with podcast := c }
  | .video, c => { vs with video := c }

/-- Python `meta["item_type"] = item_type` on a dict modelled as an association
list: overwrite the key when present, add it otherwise. -/
def setMeta : List (String × String) → String → String → List (String × String)
  | [], k, v => [(k, v)]
  | (k', v') :: rest, k, v =>
    if k' = k then (k, v) :: rest else (k', v') :: setMeta rest k v

/-- Exceptions escaping `VectorStore.add_item` / `add_items_batch`. -/
inductive StoreError where
  | embedFailed (e : ServiceFailure)  -- raised by `EmbeddingService` while generating
  | chroma (e : ChromaError)          -- raised by the chromadb upsert
deriving DecidableEq

/-- `VectorStore.add_item`: generate the embedding via the embedding service
when none is supplied, tag the metadata with the item type, and upsert one
`{id, embedding, metadata, document[:5000]}` record. -/
def add_item (svcGet : String → Except ServiceFailure (List ℚ)) (vs : VectorStore)
    (itemId text : String) (t : ItemType) (metadata : List (String × String))
    (embedding? : Option (List ℚ)) : Except StoreError (VectorStore × String) :=
  match (match embedding? with
         | some e => Except.ok e
         | none => svcGet text) with
  | .error e => .error (.embedFailed e)
  | .ok emb =>
    match (vs.coll t).upsert
        [⟨itemId, emb, setMeta metadata "item_type" t.name, ⟨text.data.take 5000⟩⟩] with
    | .ok c => .ok (vs.setColl t c, itemId)
    | .error e => .error (.chroma e)

/-- One element of the `items` argument of `VectorStore.add_items_batch`:
a dict with keys `id`, `text`, optional `metadata`, optional `embedding`. -/
structure BatchItem where
  id : String
  text : String
  metadata : List (String × String)
  embedding : Option (List ℚ)
deriving DecidableEq

/-- Python truthiness of `"embedding" in item and item["embedding"]`:
present and non-empty. -/
def BatchItem.hasEmb (b : BatchItem) : Bool :=
  match b.embedding with
  | some e => !e.isEmpty
  | none => false

/-- Zip the batch-embedding results back into their original positions
(`for idx, embedding in zip(valid_indices, all_embeddings)`); positions whose
item already carried a non-empty embedding keep it, missing positions (the zip
exhausted, or the service returned `[]` for blank text) stay empty. -/
def fillEmbeddings : List BatchItem → List (List ℚ) → List (List ℚ)
  | [], _ => []
  | b :: rest, new =>
    if b.hasEmb then (b.embedding.getD []) :: fillEmbeddings rest new
    else
      match new with
      | [] => [] :: fillEmbeddings rest []
      | e :: new' => e :: fillEmbeddings rest new'

/-- `VectorStore.add_items_batch`: batch-embed the items that carry no usable
embedding, drop items whose embedding is still empty, tag metadata, truncate
documents, upsert the remainder in one call, and return the stored ids. -/
def add_items_batch (svcBatch : List String → Except ServiceFailure (List (List ℚ)))
    (vs : VectorStore) (items : List BatchItem) (t : ItemType) :
    Except StoreError (VectorStore × List String) :=
  if items.isEmpty then .ok (vs, [])
  else
    let textsToEmbed := (items.filter (fun b => !b.hasEmb)).map (·.text)
    match (if textsToEmbed.isEmpty then Except.ok ([] : List (List ℚ))
           else svcBatch textsToEmbed) with
    | .error e => .error (.embedFailed e)
    | .ok newEmbs =>
      let embs := fillEmbeddings items newEmbs
      let valid := (items.zip embs).filter (fun p => !p.2.isEmpty)
      let entries := valid.map (fun p =>
        (⟨p.1.id, p.2, setMeta p.1.metadata "item_type" t.name,
          ⟨p.1.text.data.take 5000⟩⟩ : StoredRec))
      let validIds := valid.map (fun p => p.1.id)
      if entries.isEmpty then .ok (vs, validIds)
      else
        match (vs.coll t).upsert entries with
        | .ok c => .ok (vs.setColl t c, validIds)
        | .error e => .error (.chroma e)

/-- One search hit of `VectorStore.search_by_embedding`:
`{id, text, metadata, similarity}` with `similarity = 1 - distance`. -/
structure SearchResult where
  id : String
  text : String
  metadata : List (String × String)
  similarity : ℚ
deriving DecidableEq

/-- Convert a stored record hit into a result, deriving similarity from the
backend's cosine distance (`similarity = 1 - distance`). -/
def mkResult (dist : List ℚ → List ℚ → ℚ) (q : List ℚ) (r : StoredRec) : SearchResult :=
  ⟨r.id, r.document, r.metadata, 1 - dist q r.embedding⟩

/-- `VectorStore.search_by_embedding`: query one collection (or fan out over
all three when no type is given), merge, re-sort by similarity descending, and
truncate to `limit`.  (The optional `where` filter is `None` at every call site
modelled here and is omitted.) -/
def search_by_embedding (dist : List ℚ → List ℚ → ℚ) (vs : VectorStore)
    (embedding : List ℚ) (itemType? : Option ItemType) (limit : ℕ) :
    List SearchResult :=
  let colls :=
    match itemType? with
    | some t => [vs.coll t]
    | none => [vs.news, vs.podcast, vs.video]
  let results := colls.flatMap
    (fun c => (c.query dist embedding limit).map (mkResult dist embedding))
  (results.insertionSort (fun a b => b.similarity ≤ a.similarity)).take limit

/-- `VectorStore.find_similar`: the near-neighbours used for duplicate
detection — search the type's collection with `limit=10`, keep hits at
similarity ≥ threshold whose id is not excluded. -/
def find_similar (dist : List ℚ → List ℚ → ℚ) (vs : VectorStore)
    (embedding : List ℚ) (t : ItemType) (threshold : ℚ)
    (excludeIds : List String) : List SearchResult :=
  (search_by_embedding dist vs embedding (some t) 10).filter
    (fun r => decide (threshold ≤ r.similarity)
      && !(!excludeIds.isEmpty && excludeIds.contains r.id))

/-! ## `src/agent.py`: duplicate check and the fresh-item pipeline -/

/-- A scored feed item as it flows through `run_agent` (the fields consumed by
the duplicate check and the score sort). -/
structure AgentItem where
  id : String
  title : String
  score : ℤ
  embedding : Option (List ℚ)
deriving DecidableEq

/-- Python truthiness of `item.get("embedding")`: absent, `None` and `[]` are
all falsy. -/
def AgentItem.hasEmb (it : AgentItem) : Bool :=
  match it.embedding with
  | some e => !e.isEmpty
  | none => false

/-- `agent.check_duplicates`: walk the items in list order; an item without a
usable embedding is kept unchecked; otherwise it is kept iff `find_similar`
reports no stored neighbour at similarity ≥ threshold.  (`exclude_ids` is not
passed — the check runs against whatever the persistent store already holds.) -/
def check_duplicates (dist : List ℚ → List ℚ → ℚ) (vs : VectorStore) (t : ItemType)
    (threshold : ℚ) : List AgentItem → List AgentItem
  | [] => []
  | it :: rest =>
    if !it.hasEmb then it :: check_duplicates dist vs t threshold rest
    else
      if (find_similar dist vs (it.embedding.getD []) t threshold []).isEmpty then
        it :: check_duplicates dist vs t threshold rest
      else check_duplicates dist vs t threshold rest

/-- `fresh.sort(key=lambda x: x["score"], reverse=True)`: stable sort by score
descending. -/
def sortByScoreDesc (items : List AgentItem) : List AgentItem :=
  items.insertionSort (fun a b => b.score ≤ a.score)

/-- The fresh-item slice of `run_agent` (lines 393–403): drop already-seen
items, then run the duplicate check (threshold 0.95, news collection), and only
then sort by score descending. -/
def freshPipeline (dist : List ℚ → List ℚ → ℚ) (vs : VectorStore)
    (seen : List String) (allItems : List AgentItem) : List AgentItem :=
  sortByScoreDesc
    (check_duplicates dist vs .news (95/100)
      (allItems.filter (fun it => !seen.contains it.id)))

lemma find_similar_empty_store (dist : List ℚ → List ℚ → ℚ) (vs : VectorStore)
    (e : List ℚ) (t : ItemType) (th : ℚ) (h : (vs.coll t).recs = []) :
    find_similar dist vs e t th [] = [] := by
  simp [find_similar, search_by_embedding, Collection.query, h]

/-- C4, counterexample: with an empty persistent store, two items of the same
batch carrying embeddings at cosine similarity 1 (≥ the 0.95 threshold) — the
lower-scored one listed first — BOTH survive `check_duplicates`: batch items
are only compared against the store (they are persisted after selection), never
against each other, so the claimed drop of the lower-scored near-duplicate does
not happen. -/
theorem C4_counterexample :
    (95/100 : ℚ) ≤ 1 - (fun (_ _ : List ℚ) => (0 : ℚ)) [1, 0] [1, 0]
      ∧ check_duplicates (fun _ _ => 0) ⟨⟨[]⟩, ⟨[]⟩, ⟨[]⟩⟩ .news (95/100)
          [⟨"a", "first copy", 3, some [1, 0]⟩, ⟨"b", "second copy", 9, some [1, 0]⟩]
        = [⟨"a", "first copy", 3, some [1, 0]⟩, ⟨"b", "second copy", 9, some [1, 0]⟩] := by
  constructor
  · norm_num
  · rfl

/-- C4, amended: `check_duplicates` filters the fresh items in their given
(fetch) order — the score-descending sort of `run_agent` happens only
afterwards; an item survives iff it has no usable embedding or the persistent
store holds no neighbour at similarity ≥ threshold.  In particular, whenever
the relevant collection of the store is empty, every item of the batch
survives, regardless of any within-batch near-duplicates and of their scores. -/
theorem C4_amended (dist : List ℚ → List ℚ → ℚ) (vs : VectorStore) (t : ItemType)
    (th : ℚ) (items : List AgentItem) (seen : List String) :
    check_duplicates dist vs t th items
        = items.filter (fun it => !it.hasEmb
            || (find_similar dist vs (it.embedding.getD []) t th []).isEmpty)
      ∧ ((vs.coll t).recs = [] → check_duplicates dist vs t th items = items)
      ∧ freshPipeline dist vs seen items
          = sortByScoreDesc (check_duplicates dist vs .news (95/100)
              (items.filter (fun it => !seen.contains it.id))) := by
  have hfilter : check_duplicates dist vs t th items
      = items.filter (fun it => !it.hasEmb
          || (find_similar dist vs (it.embedding.getD []) t th []).isEmpty) := by
    induction items with
    | nil => rfl
    | cons it rest ih =>
      by_cases h1 : it.hasEmb
      · by_cases h2 : (find_similar dist vs (it.embedding.getD []) t th []).isEmpty
        · simp [check_duplicates, List.filter_cons, h1, h2, ih]
        · simp [check_duplicates, List.filter_cons, h1, h2, ih]
      · simp [check_duplicates, List.filter_cons, h1, ih]
  refine ⟨hfilter, fun hempty => ?_, rfl⟩
  rw [hfilter]
  have : ∀ it : AgentItem, (!it.hasEmb
      || (find_similar dist vs (it.embedding.getD []) t th []).isEmpty) = true := by
    intro it
    rw [find_similar_empty_store dist vs _ t th hempty]
    simp
  simp [this]

/-- Witness for `C4_amended`: the concrete two-near-duplicate batch of the
counterexample, on an empty store, survives in full. -/
theorem C4_amended_witness :
    check_duplicates (fun _ _ => 0) ⟨⟨[]⟩, ⟨[]⟩, ⟨[]⟩⟩ .news (95/100)
        [⟨"a", "first copy", 3, some [1, 0]⟩, ⟨"b", "second copy", 9, some [1, 0]⟩]
      = [⟨"a", "first copy", 3, some [1, 0]⟩, ⟨"b", "second copy", 9, some [1, 0]⟩] :=
  (C4_amended (fun _ _ => 0) ⟨⟨[]⟩, ⟨[]⟩, ⟨[]⟩⟩ .news (95/100)
    [⟨"a", "first copy", 3, some [1, 0]⟩, ⟨"b", "second copy", 9, some [1, 0]⟩] []).2.1 rfl

/-! ## The dimension invariant at the storage boundary (C3) -/

/-- Every embedding stored in the collection has the same length. -/
def Collection.dimUniform (c : Collection) : Prop :=
  ∀ r ∈ c.recs, ∀ s ∈ c.recs, r.embedding.length = s.embedding.length

instance (c : Collection) : Decidable c.dimUniform := by
  unfold Collection.dimUniform
  infer_instance

/-- Every collection of the store is dimension-uniform. -/
def VectorStore.dimUniform (vs : VectorStore) : Prop :=
  vs.news.dimUniform ∧ vs.podcast.dimUniform ∧ vs.video.dimUniform

instance (vs : VectorStore) : Decidable vs.dimUniform := by
  unfold VectorStore.dimUniform
  infer_instance

lemma VectorStore.dimUniform.coll {vs : VectorStore} (h : vs.dimUniform)
    (t : ItemType) : (vs.coll t).dimUniform := by
  cases t
  · exact h.1
  · exact h.2.1
  · exact h.2.2

lemma mem_upsertRec {recs : List StoredRec} {r x : StoredRec}
    (hx : x ∈ upsertRec recs r) : x ∈ recs ∨ x = r := by
  induction recs with
  | nil => simpa using (List.mem_singleton.mp hx)
  | cons s rest ih =>
    unfold upsertRec at hx
    by_cases h : s.id = r.id
    · rw [if_pos h] at hx
      rcases List.mem_cons.mp hx with h1 | h1
      · exact Or.inr h1
      · exact Or.inl (List.mem_cons_of_mem s h1)
    · rw [if_neg h] at hx
      rcases List.mem_cons.mp hx with h1 | h1
      · exact Or.inl (h1 ▸ List.mem_cons_self s rest)
      · rcases ih h1 with h2 | h2
        · exact Or.inl (List.mem_cons_of_mem s h2)
        · exact Or.inr h2

lemma mem_foldl_upsertRec {entries : List StoredRec} {init : List StoredRec}
    {x : StoredRec} (hx : x ∈ entries.foldl upsertRec init) :
    x ∈ init ∨ x ∈ entries := by
  induction entries generalizing init with
  | nil => exact Or.inl hx
  | cons e rest ih =>
    rw [List.foldl_cons] at hx
    rcases ih hx with h | h
    · rcases mem_upsertRec h with h1 | h1
      · exact Or.inl h1
      · exact Or.inr (h1 ▸ List.mem_cons_self e rest)
    · exact Or.inr (List.mem_cons_of_mem e h)

lemma Collection.upsert_ok_iff {c : Collection} {entries : List StoredRec} :
    (∃ c', c.upsert entries = .ok c')
      ↔ ∀ r ∈ entries, r.embedding.length = c.upsertDim entries := by
  unfold Collection.upsert
  by_cases hall : entries.all (fun r => r.embedding.length == c.upsertDim entries)
  · simp only [hall, if_pos]
    constructor
    · intro _ r hr
      exact beq_iff_eq.mp (List.all_eq_true.mp hall r hr)
    · exact fun _ => ⟨_, rfl⟩
  · simp only [hall, Bool.false_eq_true, if_false]
    constructor
    · rintro ⟨c', hc'⟩
      exact Except.noConfusion hc'
    · intro h
      exact absurd (List.all_eq_true.mpr fun r hr => beq_iff_eq.mpr (h r hr)) hall

lemma Collection.upsert_dimUniform {c c' : Collection} {entries : List StoredRec}
    (hc : c.dimUniform) (h : c.upsert entries = .ok c') : c'.dimUniform := by
  have hall : ∀ r ∈ entries, r.embedding.length = c.upsertDim entries :=
    Collection.upsert_ok_iff.mp ⟨c', h⟩
  unfold Collection.upsert at h
  rw [if_pos (List.all_eq_true.mpr fun r hr => beq_iff_eq.mpr (hall r hr))] at h
  cases h
  have hmem : ∀ x ∈ entries.foldl upsertRec c.recs,
      x.embedding.length = c.upsertDim entries := by
    intro x hx
    rcases mem_foldl_upsertRec hx with hx | hx
    · -- x was already stored: c is non-empty, so the pinned dimension is the
      -- head's length and uniformity transfers it to x
      cases hrecs : c.recs with
      | nil => rw [hrecs] at hx; cases hx
      | cons hd tl =>
        have hdim : c.upsertDim entries = hd.embedding.length := by
          unfold Collection.upsertDim Collection.dim?
          rw [hrecs]
          rfl
        rw [hdim]
        exact hc x (hrecs ▸ hx) hd (hrecs ▸ List.mem_cons_self hd tl)
    · exact hall x hx
  intro x hx y hy
  rw [hmem x hx, hmem y hy]

lemma setColl_dimUniform {vs : VectorStore} {c : Collection} {t : ItemType}
    (h : vs.dimUniform) (hc : c.dimUniform) : (vs.setColl t c).dimUniform := by
  obtain ⟨h1, h2, h3⟩ := h
  cases t
  · exact ⟨hc, h2, h3⟩
  · exact ⟨h1, hc, h3⟩
  · exact ⟨h1, h2, hc⟩

lemma add_item_dimUniform {svcGet : String → Except ServiceFailure (List ℚ)}
    {vs vs' : VectorStore} {itemId text : String} {t : ItemType}
    {m : List (String × String)} {e : Option (List ℚ)} {rid : String}
    (h : vs.dimUniform) (hok : add_item svcGet vs itemId text t m e = .ok (vs', rid)) :
    vs'.dimUniform := by
  unfold add_item at hok
  split at hok
  · exact Except.noConfusion hok
  · split at hok
    · rename_i c hup
      cases hok
      exact setColl_dimUniform h (Collection.upsert_dimUniform (h.coll t) hup)
    · exact Except.noConfusion hok

lemma add_items_batch_dimUniform
    {svcBatch : List String → Except ServiceFailure (List (List ℚ))}
    {vs vs' : VectorStore} {items : List BatchItem} {t : ItemType} {ids : List String}
    (h : vs.dimUniform) (hok : add_items_batch svcBatch vs items t = .ok (vs', ids)) :
    vs'.dimUniform := by
  unfold add_items_batch at hok
  split at hok
  · cases hok
    exact h
  · dsimp only at hok
    split at hok
    · exact Except.noConfusion hok
    · split at hok
      · cases hok
        exact h
      · split at hok
        · rename_i c hup
          cases hok
          exact setColl_dimUniform h (Collection.upsert_dimUniform (h.coll t) hup)
        · exact Except.noConfusion hok

/-- One write operation against the store, as performed by the agents
(`store_embeddings`, migrations): a single upsert or a batch upsert. -/
inductive StoreOp where
  | add (itemId text : String) (t : ItemType) (m : List (String × String))
        (e : Option (List ℚ))
  | addBatch (items : List BatchItem) (t : ItemType)

/-- Run one operation; a raised exception leaves the store untouched (chromadb
validates before it writes). -/
def applyOp (svcGet : String → Except ServiceFailure (List ℚ))
    (svcBatch : List String → Except ServiceFailure (List (List ℚ)))
    (vs : VectorStore) : StoreOp → VectorStore
  | .add itemId text t m e =>
    match add_item svcGet vs itemId text t m e with
    | .ok (vs', _) => vs'
    | .error _ => vs
  | .addBatch items t =>
    match add_items_batch svcBatch vs items t with
    | .ok (vs', _) => vs'
    | .error _ => vs

/-- Run a sequence of write operations. -/
def applyOps (svcGet : String → Except ServiceFailure (List ℚ))
    (svcBatch : List String → Except ServiceFailure (List (List ℚ)))
    (ops : List StoreOp) (vs : VectorStore) : VectorStore :=
  ops.foldl (applyOp svcGet svcBatch) vs

/-- C3: after any sequence of `add_item` / `add_items_batch` operations on a
dimension-uniform store, every collection is still dimension-uniform — and an
`add_item` whose embedding length differs from the records already stored in
the target collection is rejected with `InvalidDimensionException` (nothing is
stored), rather than stored silently. -/
theorem C3_dimension_invariant (svcGet : String → Except ServiceFailure (List ℚ))
    (svcBatch : List String → Except ServiceFailure (List (List ℚ)))
    (vs : VectorStore) (ops : List StoreOp) (h : vs.dimUniform) :
    (applyOps svcGet svcBatch ops vs).dimUniform
      ∧ ∀ (itemId text : String) (t : ItemType) (m : List (String × String))
          (e : List ℚ) (r : StoredRec), r ∈ (vs.coll t).recs →
          e.length ≠ r.embedding.length →
          add_item svcGet vs itemId text t m (some e)
            = .error (.chroma .invalidDimension) := by
  constructor
  · induction ops generalizing vs with
    | nil => exact h
    | cons op rest ih =>
      rw [applyOps, List.foldl_cons]
      refine ih (applyOp svcGet svcBatch vs op) ?_
      cases op with
      | add itemId text t m e =>
        cases hadd : add_item svcGet vs itemId text t m e with
        | ok res =>
          obtain ⟨vs', rid⟩ := res
          simpa [applyOp, hadd] using add_item_dimUniform h hadd
        | error err => simpa [applyOp, hadd] using h
      | addBatch items t =>
        cases hadd : add_items_batch svcBatch vs items t with
        | ok res =>
          obtain ⟨vs', ids⟩ := res
          simpa [applyOp, hadd] using add_items_batch_dimUniform h hadd
        | error err => simpa [applyOp, hadd] using h
  · intro itemId text t m e r hr hne
    unfold add_item
    simp only
    cases hrecs : (vs.coll t).recs with
    | nil => rw [hrecs] at hr; cases hr
    | cons hd tl =>
      have hdim : ∀ entries, (vs.coll t).upsertDim entries = hd.embedding.length := by
        intro entries
        unfold Collection.upsertDim Collection.dim?
        rw [hrecs]
        rfl
      have hhd : e.length ≠ hd.embedding.length := by
        have := h.coll t r hr hd (hrecs ▸ List.mem_cons_self hd tl)
        omega
      have : (vs.coll t).upsert
          [⟨itemId, e, setMeta m "item_type" t.name, ⟨text.data.take 5000⟩⟩]
          = .error .invalidDimension := by
        unfold Collection.upsert
        rw [if_neg]
        simp only [List.all_cons, List.all_nil, Bool.and_true, hdim]
        exact fun hbeq => hhd (beq_iff_eq.mp hbeq)
      rw [this]

/-- Witness for `C3_dimension_invariant`: a store holding one 2-dimensional
news vector is dimension-uniform; the invariant survives a concrete operation
sequence, and any mismatched single-item upsert errors out. -/
theorem C3_witness :
    (applyOps (fun _ => .error .allProvidersFailed) (fun _ => .error .allProvidersFailed)
        [.add "b" "text b" .news [] (some [3, 4]),
         .addBatch [⟨"c", "text c", [], some [5, 6]⟩] .news]
        ⟨⟨[⟨"a", [1, 2], [], "text a"⟩]⟩, ⟨[]⟩, ⟨[]⟩⟩).dimUniform
      ∧ ∀ (itemId text : String) (t : ItemType) (m : List (String × String))
          (e : List ℚ) (r : StoredRec),
          r ∈ ((⟨⟨[⟨"a", [1, 2], [], "text a"⟩]⟩, ⟨[]⟩, ⟨[]⟩⟩ : VectorStore).coll t).recs →
          e.length ≠ r.embedding.length →
          add_item (fun _ => .error .allProvidersFailed)
              ⟨⟨[⟨"a", [1, 2], [], "text a"⟩]⟩, ⟨[]⟩, ⟨[]⟩⟩ itemId text t m (some e)
            = .error (.chroma .invalidDimension) :=
  C3_dimension_invariant (fun _ => .error .allProvidersFailed)
    (fun _ => .error .allProvidersFailed)
    ⟨⟨[⟨"a", [1, 2], [], "text a"⟩]⟩, ⟨[]⟩, ⟨[]⟩⟩
    [.add "b" "text b" .news [] (some [3, 4]),
     .addBatch [⟨"c", "text c", [], some [5, 6]⟩] .news]
    (by decide)

/-! ## Upsert-by-id idempotence (C5) -/

lemma coll_setColl_same (vs : VectorStore) (c : Collection) (t : ItemType) :
    (vs.setColl t c).coll t = c := by
  cases t <;> rfl

lemma upsertRec_ne_nil (recs : List StoredRec) (r : StoredRec) :
    upsertRec recs r ≠ [] := by
  cases recs with
  | nil => simp [upsertRec]
  | cons s rest =>
    unfold upsertRec
    split <;> simp

lemma self_mem_upsertRec (recs : List StoredRec) (r : StoredRec) :
    r ∈ upsertRec recs r := by
  induction recs with
  | nil => simp [upsertRec]
  | cons s rest ih =>
    unfold upsertRec
    split
    · exact List.mem_cons_self _ _
    · exact List.mem_cons_of_mem s ih

lemma mem_map_id_upsertRec {recs : List StoredRec} {r : StoredRec} {x : String}
    (hx : x ∈ (upsertRec recs r).map (·.id)) :
    x ∈ recs.map (·.id) ∨ x = r.id := by
  obtain ⟨y, hy, hxy⟩ := List.mem_map.mp hx
  rcases mem_upsertRec hy with h | h
  · exact Or.inl (hxy ▸ List.mem_map_of_mem _ h)
  · exact Or.inr (by rw [← hxy, h])

lemma nodup_upsertRec {recs : List StoredRec} (r : StoredRec)
    (h : (recs.map (·.id)).Nodup) : ((upsertRec recs r).map (·.id)).Nodup := by
  induction recs with
  | nil => simp [upsertRec]
  | cons s rest ih =>
    rw [List.map_cons, List.nodup_cons] at h
    unfold upsertRec
    by_cases hid : s.id = r.id
    · rw [if_pos hid, List.map_cons, List.nodup_cons]
      exact ⟨hid ▸ h.1, h.2⟩
    · rw [if_neg hid, List.map_cons, List.nodup_cons]
      refine ⟨fun hmem => ?_, ih h.2⟩
      rcases mem_map_id_upsertRec hmem with h1 | h1
      · exact h.1 h1
      · exact hid h1

lemma filter_upsertRec_self {recs : List StoredRec} (r : StoredRec)
    (h : (recs.map (·.id)).Nodup) :
    (upsertRec recs r).filter (fun s => s.id == r.id) = [r] := by
  induction recs with
  | nil => simp [upsertRec]
  | cons s rest ih =>
    rw [List.map_cons, List.nodup_cons] at h
    unfold upsertRec
    by_cases hid : s.id = r.id
    · rw [if_pos hid]
      rw [List.filter_cons]
      simp only [beq_self_eq_true, if_pos]
      have hrest : rest.filter (fun s => s.id == r.id) = [] := by
        rw [List.filter_eq_nil_iff]
        intro a ha hbeq
        have : a.id = s.id := (beq_iff_eq.mp hbeq).trans hid.symm
        exact h.1 (this ▸ List.mem_map_of_mem (·.id) ha)
      rw [hrest]
    · rw [if_neg hid]
      rw [List.filter_cons]
      have : (s.id == r.id) = false := beq_eq_false_iff_ne.mpr hid
      rw [this]
      simp only [Bool.false_eq_true, if_false]
      exact ih h.2

lemma length_upsertRec_of_mem {recs : List StoredRec} {r : StoredRec}
    (h : ∃ s ∈ recs, s.id = r.id) : (upsertRec recs r).length = recs.length := by
  induction recs with
  | nil =>
    obtain ⟨s, hs, _⟩ := h
    cases hs
  | cons s rest ih =>
    unfold upsertRec
    by_cases hid : s.id = r.id
    · rw [if_pos hid]
      simp
    · rw [if_neg hid]
      obtain ⟨s', hs', hid'⟩ := h
      rcases List.mem_cons.mp hs' with h1 | h1
      · exact absurd (h1 ▸ hid') hid
      · simp [ih ⟨s', h1, hid'⟩]

/-- C5: re-upserting an existing id with a fresh (dimension-compatible) vector
and metadata succeeds, leaves exactly one record at that id — holding the
second vector, the second (item-type-tagged) metadata and the second document —
and leaves the collection's count unchanged relative to the first upsert. -/
theorem C5_upsert_idempotent (svcGet : String → Except ServiceFailure (List ℚ))
    (vs : VectorStore) (t : ItemType) (idX text1 text2 : String)
    (m1 m2 : List (String × String)) (v1 v2 : List ℚ)
    (hnodup : ((vs.coll t).recs.map (·.id)).Nodup)
    (hlen : ∀ s ∈ (vs.coll t).recs, s.embedding.length = v1.length)
    (hv : v2.length = v1.length) :
    ∃ vs1 vs2 : VectorStore,
      add_item svcGet vs idX text1 t m1 (some v1) = .ok (vs1, idX)
      ∧ add_item svcGet vs1 idX text2 t m2 (some v2) = .ok (vs2, idX)
      ∧ (vs2.coll t).recs.filter (fun s => s.id == idX)
          = [⟨idX, v2, setMeta m2 "item_type" t.name, ⟨text2.data.take 5000⟩⟩]
      ∧ (vs2.coll t).count = (vs1.coll t).count := by
  set e1 : StoredRec :=
    ⟨idX, v1, setMeta m1 "item_type" t.name, ⟨text1.data.take 5000⟩⟩ with he1
  set e2 : StoredRec :=
    ⟨idX, v2, setMeta m2 "item_type" t.name, ⟨text2.data.take 5000⟩⟩ with he2
  have hdim1 : (vs.coll t).upsertDim [e1] = v1.length := by
    unfold Collection.upsertDim Collection.dim?
    cases hrecs : (vs.coll t).recs with
    | nil => rfl
    | cons hd tl =>
      simp only [List.head?_cons, Option.map_some]
      exact hlen hd (hrecs ▸ List.mem_cons_self hd tl)
  have hcond1 : ([e1].all fun r => r.embedding.length == (vs.coll t).upsertDim [e1])
      = true := by
    simp only [List.all_cons, List.all_nil, Bool.and_true, hdim1]
    have he : e1.embedding.length = v1.length := by rw [he1]
    rw [he]
    exact beq_self_eq_true _
  have hup1 : (vs.coll t).upsert [e1] = .ok ⟨upsertRec (vs.coll t).recs e1⟩ := by
    unfold Collection.upsert
    rw [if_pos hcond1]
    rfl
  refine ⟨vs.setColl t ⟨upsertRec (vs.coll t).recs e1⟩, ?_⟩
  have hcoll1 : ((vs.setColl t ⟨upsertRec (vs.coll t).recs e1⟩).coll t)
      = ⟨upsertRec (vs.coll t).recs e1⟩ := coll_setColl_same vs _ t
  have hlen1 : ∀ s ∈ upsertRec (vs.coll t).recs e1, s.embedding.length = v1.length := by
    intro s hs
    rcases mem_upsertRec hs with h | h
    · exact hlen s h
    · rw [h, he1]
  have hnodup1 : ((upsertRec (vs.coll t).recs e1).map (·.id)).Nodup :=
    nodup_upsertRec e1 hnodup
  have hdim2 : (Collection.mk (upsertRec (vs.coll t).recs e1)).upsertDim [e2]
      = v1.length := by
    unfold Collection.upsertDim Collection.dim?
    cases hrecs : upsertRec (vs.coll t).recs e1 with
    | nil => exact absurd hrecs (upsertRec_ne_nil _ _)
    | cons hd tl =>
      simp only [List.head?_cons, Option.map_some]
      exact hlen1 hd (hrecs ▸ List.mem_cons_self hd tl)
  have hcond2 : ([e2].all fun r => r.embedding.length
      == (Collection.mk (upsertRec (vs.coll t).recs e1)).upsertDim [e2]) = true := by
    simp only [List.all_cons, List.all_nil, Bool.and_true, hdim2]
    have he : e2.embedding.length = v1.length := by rw [he2]; exact hv
    rw [he]
    exact beq_self_eq_true _
  have hup2 : (Collection.mk (upsertRec (vs.coll t).recs e1)).upsert [e2]
      = .ok ⟨upsertRec (upsertRec (vs.coll t).recs e1) e2⟩ := by
    unfold Collection.upsert
    rw [if_pos hcond2]
    rfl
  refine ⟨(vs.setColl t ⟨upsertRec (vs.coll t).recs e1⟩).setColl t
    ⟨upsertRec (upsertRec (vs.coll t).recs e1) e2⟩, ?_, ?_, ?_, ?_⟩
  · have hdef : add_item svcGet vs idX text1 t m1 (some v1)
        = match (vs.coll t).upsert [e1] with
          | .ok c => .ok (vs.setColl t c, idX)
          | .error e => .error (.chroma e) := rfl
    rw [hdef, hup1]
  · have hdef : add_item svcGet (vs.setColl t ⟨upsertRec (vs.coll t).recs e1⟩)
        idX text2 t m2 (some v2)
        = match ((vs.setColl t ⟨upsertRec (vs.coll t).recs e1⟩).coll t).upsert [e2] with
          | .ok c => .ok ((vs.setColl t ⟨upsertRec (vs.coll t).recs e1⟩).setColl t c, idX)
          | .error e => .error (.chroma e) := rfl
    rw [hdef, hcoll1, hup2]
  · rw [coll_setColl_same]
    exact filter_upsertRec_self e2 hnodup1
  · rw [coll_setColl_same, hcoll1]
    unfold Collection.count
    exact length_upsertRec_of_mem ⟨e1, self_mem_upsertRec _ e1, rfl⟩

/-- Witness for `C5_upsert_idempotent`: two successive upserts of id `"x"` into
an initially empty news collection. -/
theorem C5_witness :
    ∃ vs1 vs2 : VectorStore,
      add_item (fun _ => .error .allProvidersFailed) ⟨⟨[]⟩, ⟨[]⟩, ⟨[]⟩⟩
          "x" "t1" .news [] (some [1, 2]) = .ok (vs1, "x")
      ∧ add_item (fun _ => .error .allProvidersFailed) vs1
          "x" "t2" .news [("k", "v")] (some [3, 4]) = .ok (vs2, "x")
      ∧ (vs2.coll .news).recs.filter (fun s => s.id == "x")
          = [⟨"x", [3, 4], setMeta [("k", "v")] "item_type" ItemType.news.name,
              ⟨"t2".data.take 5000⟩⟩]
      ∧ (vs2.coll .news).count = (vs1.coll .news).count :=
  C5_upsert_idempotent (fun _ => .error .allProvidersFailed) ⟨⟨[]⟩, ⟨[]⟩, ⟨[]⟩⟩
    .news "x" "t1" "t2" [] [("k", "v")] [1, 2] [3, 4]
    (by decide) (by decide) (by decide)

/-! ## `find_similar` duplicate reporting (C6, C10) -/

lemma mem_search_from_query {dist : List ℚ → List ℚ → ℚ} {vs : VectorStore}
    {q : List ℚ} {t : ItemType} {limit : ℕ} {res : SearchResult}
    (h : res ∈ search_by_embedding dist vs q (some t) limit) :
    ∃ rec ∈ (vs.coll t).query dist q limit, res = mkResult dist q rec := by
  unfold search_by_embedding at h
  dsimp only at h
  have h1 := List.take_subset _ _ h
  have h2 := (List.perm_insertionSort
    (fun a b : SearchResult => b.similarity ≤ a.similarity) _).mem_iff.mp h1
  rw [List.flatMap_cons, List.flatMap_nil, List.append_nil] at h2
  obtain ⟨rec, hrec, hres⟩ := List.mem_map.mp h2
  exact ⟨rec, hrec, hres.symm⟩

lemma mem_query_subset {c : Collection} {dist : List ℚ → List ℚ → ℚ} {q : List ℚ}
    {limit : ℕ} {rec : StoredRec} (h : rec ∈ c.query dist q limit) : rec ∈ c.recs := by
  unfold Collection.query at h
  exact (List.perm_insertionSort
    (fun a b : StoredRec => dist q a.embedding ≤ dist q b.embedding) _).mem_iff.mp
    (List.take_subset _ _ h)

lemma mem_search_by_embedding {dist : List ℚ → List ℚ → ℚ} {vs : VectorStore}
    {q : List ℚ} {t : ItemType} {limit : ℕ} {res : SearchResult}
    (h : res ∈ search_by_embedding dist vs q (some t) limit) :
    ∃ rec ∈ (vs.coll t).recs, res = mkResult dist q rec := by
  obtain ⟨rec, hrec, hres⟩ := mem_search_from_query h
  exact ⟨rec, mem_query_subset hrec, hres⟩

lemma find_similar_pred {threshold : ℚ} {excludeIds : List String} {res : SearchResult}
    (h : (decide (threshold ≤ res.similarity)
      && !(!excludeIds.isEmpty && excludeIds.contains res.id)) = true) :
    threshold ≤ res.similarity ∧ res.id ∉ excludeIds := by
  rw [Bool.and_eq_true, decide_eq_true_eq] at h
  refine ⟨h.1, fun hmem => ?_⟩
  have h2 := h.2
  simp at h2
  rcases h2 with h2 | h2
  · rw [h2] at hmem
    cases hmem
  · exact h2 hmem

/-- C6: every hit `find_similar` reports has similarity ≥ the threshold and an
id outside the exclude list (so an item whose own id is excluded never counts
as its own duplicate); moreover, on a collection of at most 10 stored records
with pairwise-distinct ids, a stored vector at similarity ≥ 0.95 to the query
IS reported at the default threshold, and one at similarity 0.5 is NOT. -/
theorem C6_find_similar_reports (dist : List ℚ → List ℚ → ℚ) (vs : VectorStore)
    (q : List ℚ) (t : ItemType) (threshold : ℚ) (excludeIds : List String) :
    (∀ res ∈ find_similar dist vs q t threshold excludeIds,
        threshold ≤ res.similarity ∧ res.id ∉ excludeIds)
      ∧ ((vs.coll t).recs.length ≤ 10 →
          ∀ rec ∈ (vs.coll t).recs, 95/100 ≤ 1 - dist q rec.embedding →
            rec.id ∉ excludeIds →
            mkResult dist q rec ∈ find_similar dist vs q t (95/100) excludeIds)
      ∧ (((vs.coll t).recs.map (fun r => r.id)).Nodup →
          ∀ rec ∈ (vs.coll t).recs, 1 - dist q rec.embedding = 1/2 →
            ∀ res ∈ find_similar dist vs q t (95/100) excludeIds, res.id ≠ rec.id) := by
  have hA : ∀ th : ℚ, ∀ res ∈ find_similar dist vs q t th excludeIds,
      th ≤ res.similarity ∧ res.id ∉ excludeIds := by
    intro th res h
    unfold find_similar at h
    exact find_similar_pred (List.mem_filter.mp h).2
  refine ⟨hA threshold, ?_, ?_⟩
  · intro hlen rec hrec hsim hex
    unfold find_similar
    rw [List.mem_filter]
    constructor
    · unfold search_by_embedding
      dsimp only
      rw [List.flatMap_cons, List.flatMap_nil, List.append_nil]
      have hq : (vs.coll t).query dist q 10
          = (vs.coll t).recs.insertionSort
              (fun a b => dist q a.embedding ≤ dist q b.embedding) := by
        unfold Collection.query
        exact List.take_of_length_le (le_trans (List.length_insertionSort _ _).le hlen)
      rw [hq]
      have hmem1 : mkResult dist q rec ∈ ((vs.coll t).recs.insertionSort
          (fun a b => dist q a.embedding ≤ dist q b.embedding)).map (mkResult dist q) :=
        List.mem_map_of_mem _ ((List.perm_insertionSort _ _).mem_iff.mpr hrec)
      have hlen2 : ((((vs.coll t).recs.insertionSort
          (fun a b => dist q a.embedding ≤ dist q b.embedding)).map
            (mkResult dist q)).insertionSort
              (fun a b : SearchResult => b.similarity ≤ a.similarity)).length ≤ 10 := by
        rw [List.length_insertionSort, List.length_map, List.length_insertionSort]
        exact hlen
      rw [List.take_of_length_le hlen2]
      exact (List.perm_insertionSort _ _).mem_iff.mpr hmem1
    · have hsim2 : (mkResult dist q rec).similarity = 1 - dist q rec.embedding := rfl
      have hid : (mkResult dist q rec).id = rec.id := rfl
      rw [Bool.and_eq_true, decide_eq_true_eq, hsim2, hid]
      refine ⟨hsim, ?_⟩
      have hcont : excludeIds.contains rec.id = false := by simpa using hex
      rw [hcont]
      simp
  · intro hnodup rec hrec hsim res hres hid
    have hth := (hA (95/100) res hres).1
    obtain ⟨rec', hrec', hres'⟩ := mem_search_by_embedding
      (List.mem_of_mem_filter hres)
    have hid' : rec'.id = rec.id := by rw [← hid, hres']; rfl
    have heq : rec' = rec :=
      List.inj_on_of_nodup_map hnodup hrec' hrec hid'
    have : res.similarity = 1 - dist q rec.embedding := by
      rw [hres', ← heq]
      rfl
    rw [this, hsim] at hth
    norm_num at hth

/-- Witness for `C6_find_similar_reports`: a two-record news collection where
`"near"` sits at similarity 1 ≥ 0.95 to the query and `"half"` at similarity
exactly 0.5; the near record is reported, the half one never is. -/
theorem C6_witness :
    mkResult (fun _ e => if e = [2, 0] then 0 else 1/2) [1, 0]
        ⟨"near", [2, 0], [], "doc near"⟩
      ∈ find_similar (fun _ e => if e = [2, 0] then 0 else 1/2)
          ⟨⟨[⟨"near", [2, 0], [], "doc near"⟩, ⟨"half", [7, 7], [], "doc half"⟩]⟩, ⟨[]⟩, ⟨[]⟩⟩
          [1, 0] .news (95/100) []
      ∧ ∀ res ∈ find_similar (fun _ e => if e = [2, 0] then 0 else 1/2)
          ⟨⟨[⟨"near", [2, 0], [], "doc near"⟩, ⟨"half", [7, 7], [], "doc half"⟩]⟩, ⟨[]⟩, ⟨[]⟩⟩
          [1, 0] .news (95/100) [], res.id ≠ "half" := by
  constructor
  · exact (C6_find_similar_reports (fun _ e => if e = [2, 0] then 0 else 1/2)
      ⟨⟨[⟨"near", [2, 0], [], "doc near"⟩, ⟨"half", [7, 7], [], "doc half"⟩]⟩, ⟨[]⟩, ⟨[]⟩⟩
      [1, 0] .news (95/100) []).2.1 (by decide)
      ⟨"near", [2, 0], [], "doc near"⟩ (by decide) (by norm_num) (by decide)
  · intro res hres
    exact (C6_find_similar_reports (fun _ e => if e = [2, 0] then 0 else 1/2)
      ⟨⟨[⟨"near", [2, 0], [], "doc near"⟩, ⟨"half", [7, 7], [], "doc half"⟩]⟩, ⟨[]⟩, ⟨[]⟩⟩
      [1, 0] .news (95/100) []).2.2 (by decide)
      ⟨"half", [7, 7], [], "doc half"⟩ (by decide) (by norm_num) res hres

/-- C10: `find_similar` reports at most 10 near-neighbours, all drawn from the
10 stored records nearest to the query in the type's collection (chromadb is
asked for `n_results = 10` and the wrapper truncates to the same limit); hence
a stored record outside the 10 nearest is never reported as a duplicate, even
when its similarity exceeds the threshold. -/
theorem C10_top10_cap (dist : List ℚ → List ℚ → ℚ) (vs : VectorStore) (q : List ℚ)
    (t : ItemType) (threshold : ℚ) (excludeIds : List String) :
    (find_similar dist vs q t threshold excludeIds).length ≤ 10
      ∧ (∀ res ∈ find_similar dist vs q t threshold excludeIds,
          res.id ∈ ((vs.coll t).query dist q 10).map (fun r => r.id))
      ∧ (∀ rec ∈ (vs.coll t).recs,
          rec.id ∉ ((vs.coll t).query dist q 10).map (fun r => r.id) →
          threshold ≤ 1 - dist q rec.embedding →
          ∀ res ∈ find_similar dist vs q t threshold excludeIds, res.id ≠ rec.id) := by
  have hb : ∀ res ∈ find_similar dist vs q t threshold excludeIds,
      res.id ∈ ((vs.coll t).query dist q 10).map (fun r => r.id) := by
    intro res hres
    obtain ⟨rec, hrec, hresr⟩ := mem_search_from_query (List.mem_of_mem_filter hres)
    rw [hresr]
    exact List.mem_map_of_mem _ hrec
  refine ⟨?_, hb, ?_⟩
  · unfold find_similar
    refine le_trans (List.length_filter_le _ _) ?_
    unfold search_by_embedding
    dsimp only
    exact List.length_take_le _ _
  · intro rec _ hout _ res hres hid
    exact hout (hid ▸ hb res hres)

/-- Witness for `C10_top10_cap` on a one-record store at distance 0: the cap
holds and the reported hit's id comes from the 10-nearest query. -/
theorem C10_witness :
    (find_similar (fun _ _ => 0) ⟨⟨[⟨"a", [5], [], "d"⟩]⟩, ⟨[]⟩, ⟨[]⟩⟩
        [0] .news 0 []).length ≤ 10
      ∧ (⟨"a", "d", [], 1⟩ : SearchResult).id
          ∈ (((⟨⟨[⟨"a", [5], [], "d"⟩]⟩, ⟨[]⟩, ⟨[]⟩⟩ : VectorStore).coll .news).query
              (fun _ _ => 0) [0] 10).map (fun r => r.id) := by
  have hval : find_similar (fun _ _ => 0) ⟨⟨[⟨"a", [5], [], "d"⟩]⟩, ⟨[]⟩, ⟨[]⟩⟩
      [0] .news 0 [] = [⟨"a", "d", [], 1⟩] := by
    norm_num [find_similar, search_by_embedding, Collection.query, mkResult,
      VectorStore.coll, List.insertionSort, List.orderedInsert]
  refine ⟨(C10_top10_cap (fun _ _ => 0) ⟨⟨[⟨"a", [5], [], "d"⟩]⟩, ⟨[]⟩, ⟨[]⟩⟩
      [0] .news 0 []).1, ?_⟩
  exact (C10_top10_cap (fun _ _ => 0) ⟨⟨[⟨"a", [5], [], "d"⟩]⟩, ⟨[]⟩, ⟨[]⟩⟩
      [0] .news 0 []).2.1 ⟨"a", "d", [], 1⟩ (by rw [hval]; exact List.mem_singleton.mpr rfl)

/-! ## `src/services/semantic_scorer.py`: cosine relevance scoring (C8)

`numpy` float arithmetic is modelled over the reals; the stored vector entries
are the exact rationals fed in.  `np.dot` of two same-length 1-D arrays is the
sum of pairwise products; `np.linalg.norm` is the square root of the sum of
squares (so the guard `norm_a == 0 or norm_b == 0` is equivalent to a zero sum
of squares). -/

/-- `np.dot(a_arr, b_arr)` for same-length 1-D arrays. -/
def dotList (a b : List ℚ) : ℚ :=
  (List.zipWith (fun x y => x * y) a b).sum

/-- Sum of squares, so that `np.linalg.norm a = Real.sqrt (normSq a)`. -/
def normSq (a : List ℚ) : ℚ :=
  (a.map (fun x => x * x)).sum

/-- `semantic_scorer.cosine_similarity`: dot product over the product of norms,
with the zero-norm guard returning `0.0`. -/
noncomputable def cosine_similarity (a b : List ℚ) : ℝ :=
  if normSq a = 0 ∨ normSq b = 0 then 0
  else (dotList a b : ℝ) / (Real.sqrt (normSq a : ℝ) * Real.sqrt (normSq b : ℝ))

/-- `SemanticScorer.score_item`: an empty embedding scores `min_score`;
otherwise the cosine similarity against the interest embedding, clamped to
`[min_score, max_score]` via `max(min_score, min(max_score, similarity))`. -/
noncomputable def SemanticScorer.score_item (interest : List ℚ)
    (item_embedding : List ℚ) (min_score max_score : ℝ) : ℝ :=
  if item_embedding.isEmpty then min_score
  else max min_score (min max_score (cosine_similarity interest item_embedding))

/-- C8: with the default bounds (0, 1) and a dimension-matched vector, the
score always lies in `[0, 1]`, equals the clamped cosine similarity against the
interest vector for non-empty input, and is exactly the minimum 0 for every
all-zero vector and for the empty vector. -/
theorem C8_score_item_bounds (interest v : List ℚ) (h : v.length = interest.length) :
    0 ≤ SemanticScorer.score_item interest v 0 1
      ∧ SemanticScorer.score_item interest v 0 1 ≤ 1
      ∧ (¬v.isEmpty = true → SemanticScorer.score_item interest v 0 1
          = max 0 (min 1 (cosine_similarity interest v)))
      ∧ ((∀ x ∈ v, x = 0) → SemanticScorer.score_item interest v 0 1 = 0)
      ∧ SemanticScorer.score_item interest ([] : List ℚ) 0 1 = 0 := by
  unfold SemanticScorer.score_item
  by_cases hv : v.isEmpty
  · rw [if_pos hv]
    exact ⟨le_refl 0, zero_le_one, fun hc => absurd hv hc,
      fun _ => rfl, rfl⟩
  · rw [if_neg hv]
    refine ⟨le_max_left 0 _, max_le zero_le_one (min_le_left 1 _), fun _ => rfl,
      fun hz => ?_, rfl⟩
    have hnz : normSq v = 0 := by
      unfold normSq
      refine List.sum_eq_zero ?_
      intro x hx
      obtain ⟨y, hy, hxy⟩ := List.mem_map.mp hx
      rw [← hxy, hz y hy]
      ring
    have hcos : cosine_similarity interest v = 0 := by
      unfold cosine_similarity
      rw [if_pos (Or.inr hnz)]
    rw [hcos]
    norm_num

/-- Witness for `C8_score_item_bounds` at interest vector `[1, 0]` and the
zero vector `[0, 0]`. -/
theorem C8_witness :
    0 ≤ SemanticScorer.score_item [1, 0] [0, 0] 0 1
      ∧ SemanticScorer.score_item [1, 0] [0, 0] 0 1 ≤ 1
      ∧ (¬([0, 0] : List ℚ).isEmpty = true → SemanticScorer.score_item [1, 0] [0, 0] 0 1
          = max 0 (min 1 (cosine_similarity [1, 0] [0, 0])))
      ∧ ((∀ x ∈ ([0, 0] : List ℚ), x = 0) → SemanticScorer.score_item [1, 0] [0, 0] 0 1 = 0)
      ∧ SemanticScorer.score_item [1, 0] ([] : List ℚ) 0 1 = 0 :=
  C8_score_item_bounds [1, 0] [0, 0] rfl

/-! ## `src/services/topic_clustering.py`: silhouette search (C9)

`sklearn`'s `KMeans(n_clusters=k, random_state=42, n_init=10).fit_predict`
followed by `silhouette_score` is the oracle `sil : ℕ → ℚ` — the silhouette
score obtained for candidate `k` on the given embeddings; real silhouette
scores lie in `[-1, 1]`.  The `try/except: continue` around a candidate is not
modelled: the oracle is total, covering runs where every candidate's silhouette
computation succeeds. -/

/-- The loop body of `find_optimal_k`:
`if score > best_score: best_score, best_k = score, k`. -/
def bestStep (sil : ℕ → ℚ) (b : ℕ × ℚ) (k : ℕ) : ℕ × ℚ :=
  if b.2 < sil k then (k, sil k) else b

/-- `TopicClusterer.find_optimal_k` for `n` embeddings: the degenerate
short-circuits, then a linear scan of `k ∈ [min_clusters, max_k]` starting from
`best_k = min_clusters, best_score = -1`. -/
def find_optimal_k (sil : ℕ → ℚ) (minClusters maxClusters minClusterSize n : ℕ) : ℕ :=
  if n < minClusters + 1 then max 1 (n / minClusterSize)
  else
    let maxK := min maxClusters (n / minClusterSize)
    if maxK < minClusters then minClusters
    else
      ((List.range' minClusters (maxK + 1 - minClusters)).foldl
        (bestStep sil) (minClusters, (-1 : ℚ))).1

lemma foldl_bestStep_fst (sil : ℕ → ℚ) (cands : List ℕ) (b : ℕ × ℚ) :
    (cands.foldl (bestStep sil) b).1 = b.1 ∨ (cands.foldl (bestStep sil) b).1 ∈ cands := by
  induction cands generalizing b with
  | nil => exact Or.inl rfl
  | cons k rest ih =>
    rw [List.foldl_cons]
    rcases ih (bestStep sil b k) with h | h
    · rw [h]
      unfold bestStep
      split
      · exact Or.inr (List.mem_cons_self _ _)
      · exact Or.inl rfl
    · exact Or.inr (List.mem_cons_of_mem _ h)

lemma foldl_bestStep_le (sil : ℕ → ℚ) (cands : List ℕ) (b : ℕ × ℚ) :
    b.2 ≤ (cands.foldl (bestStep sil) b).2 := by
  induction cands generalizing b with
  | nil => exact le_refl _
  | cons k rest ih =>
    rw [List.foldl_cons]
    refine le_trans ?_ (ih (bestStep sil b k))
    unfold bestStep
    split
    · rename_i hlt
      exact le_of_lt hlt
    · exact le_refl _

lemma foldl_bestStep_max (sil : ℕ → ℚ) (cands : List ℕ) (b : ℕ × ℚ) :
    ∀ k ∈ cands, sil k ≤ (cands.foldl (bestStep sil) b).2 := by
  induction cands generalizing b with
  | nil =>
    intro k hk
    cases hk
  | cons k' rest ih =>
    intro k hk
    rw [List.foldl_cons]
    rcases List.mem_cons.mp hk with h | h
    · subst h
      refine le_trans ?_ (foldl_bestStep_le sil rest (bestStep sil b k))
      unfold bestStep
      split
      · exact le_refl _
      · rename_i hlt
        exact le_of_not_lt hlt
    · exact ih (bestStep sil b k') k h

lemma foldl_bestStep_attained (sil : ℕ → ℚ) (cands : List ℕ) (b : ℕ × ℚ) :
    cands.foldl (bestStep sil) b = b
      ∨ (cands.foldl (bestStep sil) b).2 = sil (cands.foldl (bestStep sil) b).1 := by
  induction cands generalizing b with
  | nil => exact Or.inl rfl
  | cons k rest ih =>
    rw [List.foldl_cons]
    rcases ih (bestStep sil b k) with h | h
    · rw [h]
      unfold bestStep
      split
      · exact Or.inr rfl
      · exact Or.inl rfl
    · exact Or.inr h

/-- C9: when `k` is not supplied, `find_optimal_k` returns
`max 1 (n / min_cluster_size)` for `n < min_clusters + 1`; returns
`min_clusters` when the candidate range `[min_clusters, min(max_clusters,
n / min_cluster_size)]` is empty; and otherwise returns a candidate from that
range maximising the silhouette oracle (silhouette scores are ≥ −1). -/
theorem C9_find_optimal_k_spec (sil : ℕ → ℚ)
    (minClusters maxClusters minClusterSize n : ℕ) (hms : 0 < minClusterSize) :
    (n < minClusters + 1 →
        find_optimal_k sil minClusters maxClusters minClusterSize n
          = max 1 (n / minClusterSize))
      ∧ (¬ n < minClusters + 1 → min maxClusters (n / minClusterSize) < minClusters →
          find_optimal_k sil minClusters maxClusters minClusterSize n = minClusters)
      ∧ (¬ n < minClusters + 1 → ¬ min maxClusters (n / minClusterSize) < minClusters →
          (∀ k ∈ List.range' minClusters
              (min maxClusters (n / minClusterSize) + 1 - minClusters), -1 ≤ sil k) →
          find_optimal_k sil minClusters maxClusters minClusterSize n
              ∈ List.range' minClusters
                  (min maxClusters (n / minClusterSize) + 1 - minClusters)
            ∧ ∀ k ∈ List.range' minClusters
                (min maxClusters (n / minClusterSize) + 1 - minClusters),
                sil k ≤ sil (find_optimal_k sil minClusters maxClusters minClusterSize n)) := by
  refine ⟨fun h => ?_, fun h1 h2 => ?_, fun h1 h2 hsil => ?_⟩
  · unfold find_optimal_k
    rw [if_pos h]
  · unfold find_optimal_k
    rw [if_neg h1]
    dsimp only
    rw [if_pos h2]
  · have hres : find_optimal_k sil minClusters maxClusters minClusterSize n
        = ((List.range' minClusters
            (min maxClusters (n / minClusterSize) + 1 - minClusters)).foldl
          (bestStep sil) (minClusters, (-1 : ℚ))).1 := by
      unfold find_optimal_k
      rw [if_neg h1]
      dsimp only
      rw [if_neg h2]
    have hmem : minClusters ∈ List.range' minClusters
        (min maxClusters (n / minClusterSize) + 1 - minClusters) := by
      rw [List.mem_range'_1]
      omega
    have hfst := foldl_bestStep_fst sil (List.range' minClusters
      (min maxClusters (n / minClusterSize) + 1 - minClusters)) (minClusters, (-1 : ℚ))
    have hmax := foldl_bestStep_max sil (List.range' minClusters
      (min maxClusters (n / minClusterSize) + 1 - minClusters)) (minClusters, (-1 : ℚ))
    have hatt := foldl_bestStep_attained sil (List.range' minClusters
      (min maxClusters (n / minClusterSize) + 1 - minClusters)) (minClusters, (-1 : ℚ))
    rw [hres]
    constructor
    · rcases hfst with h | h
      · rw [h]
        exact hmem
      · exact h
    · intro k hk
      rcases hatt with h | h
      · have hk1 : sil k ≤ -1 := by
          have hle := hmax k hk
          rw [h] at hle
          exact hle
        rw [h]
        exact le_trans hk1 (hsil minClusters hmem)
      · rw [← h]
        exact hmax k hk

/-- Witness for `C9_find_optimal_k_spec`: configuration
`min_clusters = 2, max_clusters = 10, min_cluster_size = 2` on 10 samples with
silhouette oracle peaking at `k = 3`. -/
theorem C9_witness :
    find_optimal_k (fun k => if k = 3 then 1 else 0) 2 10 2 10
        ∈ List.range' 2 (min 10 (10 / 2) + 1 - 2)
      ∧ ∀ k ∈ List.range' 2 (min 10 (10 / 2) + 1 - 2),
          (fun k => if k = 3 then (1 : ℚ) else 0) k
            ≤ (fun k => if k = 3 then (1 : ℚ) else 0)
                (find_optimal_k (fun k => if k = 3 then 1 else 0) 2 10 2 10) :=
  (C9_find_optimal_k_spec (fun k => if k = 3 then 1 else 0) 2 10 2 10
    (by decide)).2.2 (by decide) (by decide)
    (by
      intro k hk
      split <;> norm_num)

end NewsAgent
